import Mathlib

/-!
Verification development for the image acquisition and deduplication
pipeline of the repository (class `ImageProcessor` in
`src/nonebot-plugin-chobits/unit/image/__init__.py`).

Bytes are modelled as `Nat` (the Python `bytes` values are in `0..255`;
none of the verified properties depend on the upper bound).  Byte
buffers are `List Nat`.  The external effects of the code — the PIL
decoder, the MD5 digest, the HTTP client and the filesystem — are
modelled as explicit oracle functions or explicit state, so that every
definition stays executable and every property is settled against the
control flow actually present in the source.
-/

/-! ## Content sniffer (`ImageProcessor._identify_file_type_by_magic`, lines 226-251)

The magic-number table `ImageProcessor.MAGIC_NUMBERS` (lines 141-187),
transcribed entry by entry; each Python byte literal becomes the list of
its byte values, each type constant becomes its lowercase string value. -/

def MAGIC_NUMBERS : List (List Nat × String) := [
  ([80, 75, 3, 4], "zip"),
  ([80, 75, 5, 6], "zip"),
  ([80, 75, 7, 8], "zip"),
  ([82, 97, 114, 33, 26, 7, 0], "rar"),
  ([82, 97, 114, 33, 26, 7, 1, 0], "rar"),
  ([55, 122, 188, 175, 39, 28], "7z"),
  ([37, 80, 68, 70], "pdf"),
  ([77, 90], "exe"),
  ([127, 69, 76, 70], "elf"),
  ([0, 0, 0, 28, 102, 116, 121, 112, 97, 118, 105, 102], "avif"),
  ([0, 0, 0, 24, 102, 116, 121, 112], "mp4"),
  ([0, 0, 0, 32, 102, 116, 121, 112], "mp4"),
  ([82, 73, 70, 70], "avi"),
  ([102, 116, 121, 112, 113, 116], "mov"),
  ([109, 111, 111, 118], "mov"),
  ([102, 114, 101, 101], "mov"),
  ([26, 69, 223, 163], "mkv"),
  ([102, 76, 97, 67], "flac"),
  ([73, 68, 51], "mp3"),
  ([82, 73, 70, 70], "wav"),
  ([82, 73, 70, 70], "webp"),
  ([137, 80, 78, 71], "png"),
  ([255, 216, 255], "jpeg"),
  ([71, 73, 70, 56, 57, 97], "gif"),
  ([71, 73, 70, 56, 55, 97], "gif"),
  ([66, 77], "bmp"),
  ([73, 73, 42, 0], "tiff"),
  ([77, 77, 0, 42], "tiff"),
  ([56, 66, 80, 83], "psd"),
  ([0, 0, 1, 0], "ico"),
  ([208, 207, 17, 224, 161, 177, 26, 225], "doc"),
  ([60, 33, 68, 79, 67, 84, 89, 80], "html"),
  ([60, 33, 100, 111, 99, 116, 121, 112, 101], "html"),
  ([35, 33, 47, 117, 115, 114, 47, 98, 105, 110, 47, 101, 110, 118, 32, 112, 121, 116, 104, 111, 110], "py"),
  ([35, 33, 47, 117, 115, 114, 47, 98, 105, 110, 47, 112, 121, 116, 104, 111, 110], "py"),
  ([35, 33, 47, 98, 105, 110, 47, 98, 97, 115, 104], "sh"),
  ([35, 33, 47, 98, 105, 110, 47, 115, 104], "sh"),
  ([35, 33, 47, 117, 115, 114, 47, 98, 105, 110, 47, 112, 101, 114, 108], "pl"),
  ([60, 63, 112, 104, 112], "php"),
  ([35, 105, 110, 99, 108, 117, 100, 101, 32, 60], "cpp"),
  ([35, 33], "pl"),
  ([35, 32], "sh"),
  ([35, 105], "php"),
  ([42, 42, 42], "cpp"),
  ([10], "py")]

/-- The extension dictionary `ImageProcessor.EXTENSION_MAPPING` (lines 107-138). -/
def EXTENSION_MAPPING : List (String × String) := [
  ("png", ".png"), ("jpeg", ".jpg"), ("gif", ".gif"), ("bmp", ".bmp"),
  ("tiff", ".tiff"), ("webp", ".webp"), ("avif", ".avif"), ("ico", ".ico"),
  ("psd", ".psd"), ("pdf", ".pdf"), ("doc", ".doc"), ("docx", ".docx"),
  ("html", ".html"), ("mp3", ".mp3"), ("wav", ".wav"), ("flac", ".flac"),
  ("mp4", ".mp4"), ("avi", ".avi"), ("mov", ".mov"), ("mkv", ".mkv"),
  ("zip", ".zip"), ("rar", ".rar"), ("7z", ".7z"), ("exe", ".exe"),
  ("elf", ".elf"), ("py", ".py"), ("pl", ".pl"), ("php", ".php"),
  ("cpp", ".cpp"), ("sh", ".sh")]

/-- Python `data.startswith(sig)` on byte strings. -/
def bytes_starts_with : List Nat → List Nat → Bool
  | [], _ => true
  | _ :: _, [] => false
  | s :: ss, d :: ds => s == d && bytes_starts_with ss ds

/-- The byte string `b"RIFF"`. -/
def riffSig : List Nat := [82, 73, 70, 70]

/-- The generic first-match scan over the magic table (lines 247-251):
`for magic, file_type in self.MAGIC_NUMBERS: if len(magic) <= len(data)
and data.startswith(magic): return file_type`. -/
def scan_magic : List (List Nat × String) → List Nat → Option String
  | [], _ => none
  | (magic, file_type) :: rest, data =>
    if magic.length ≤ data.length ∧ bytes_starts_with magic data = true then some file_type
    else scan_magic rest data

/-- `ImageProcessor._identify_file_type_by_magic` (lines 226-251): rejects
inputs shorter than 2 bytes, special-cases the RIFF container by the tag at
bytes 8-12 (falling through on an unknown tag), then scans the table. -/
def identify_file_type_by_magic (data : List Nat) : Option String :=
  if data.length < 2 then none
  else
    match (if bytes_starts_with riffSig data = true ∧ 12 ≤ data.length then
             (let riff_type := (data.drop 8).take 4
              if riff_type = [65, 86, 73, 32] then some "avi"
              else if riff_type = [87, 65, 86, 69] then some "wav"
              else if riff_type = [87, 69, 66, 80] then some "webp"
              else none)
           else none) with
    | some t => some t
    | none => scan_magic MAGIC_NUMBERS data

/-- No table entry strictly before index `i` matches the buffer `b`. -/
def no_earlier_match (tbl : List (List Nat × String)) (b : List Nat) (i : Nat) : Bool :=
  (List.range i).all (fun j =>
    match tbl.get? j with
    | some e => !(bytes_starts_with e.1 b)
    | none => true)

/-! ## Fetcher (`ImageProcessor._fetch_content_with_location`, lines 253-294)

The HTTP client is modelled as a function from a URL to the response the
server gives for a plain GET with redirects disabled.  `exn` models the
`except Exception` branch (network error, timeout). -/

inductive HttpResp where
  | ok (status : Nat) (location : Option String) (content : List Nat)
  | exn
deriving Repr

/-- Python truthiness of `response.headers.get("Location")` (line 280,
`if location:`): absent headers and the empty string are falsy. -/
def location_truthy : Option String → Bool
  | none => false
  | some s => !(s == "")

/-- A response that the fetcher treats as a redirect hop. -/
def is_redirect_resp : HttpResp → Bool
  | .ok _ l _ => location_truthy l
  | .exn => false

/-- `ImageProcessor._add_https_if_missing` (lines 196-205). -/
def add_https_if_missing (url : String) : String :=
  if url.startsWith "http://" || url.startsWith "https://" then url
  else "https://" ++ String.mk (url.toList.dropWhile (fun c => c == '/'))

/-- `ImageProcessor._fetch_content_with_location` (lines 253-294) with the
redirect budget as the recursion fuel: the Python guard `max_redirects <= 0`
is the zero case, each hop recurses with `max_redirects - 1`. -/
def fetch_content_with_location (src : String → HttpResp) : String → Nat → Option (List Nat)
  | _, 0 => none
  | url, n + 1 =>
    match src url with
    | .exn => none
    | .ok status location content =>
      if location_truthy location then
        fetch_content_with_location src (add_https_if_missing (location.getD "")) n
      else if status == 200 then some content
      else none

/-- Instrumentation of the same recursion: the number of GET requests the
fetcher issues before returning. -/
def fetch_request_count (src : String → HttpResp) : String → Nat → Nat
  | _, 0 => 0
  | url, n + 1 =>
    match src url with
    | .exn => 1
    | .ok _ location _ =>
      if location_truthy location then
        1 + fetch_request_count src (add_https_if_missing (location.getD "")) n
      else 1

/-! ## Metadata extractor (`ImageProcessor.get_image_info`, lines 316-396)

The record returned by `get_image_info` (the Python result dict). -/

structure ImageInfo where
  size : Nat
  md5 : String
  phash : String
  file_type : String
  width : Nat
  height : Nat
  orientation : String
deriving Repr, DecidableEq

/-- Outcome of the PIL block (lines 332-371) on one buffer.  `ok` carries
the decoder-reported lowercase format, the uppercase pHash string and the
pixel dimensions.  `failIdent` is the `except (UnidentifiedImageError,
IOError)` branch, `failOther` the `except Exception as e` branch; both
carry the value `file_type` holds when the exception is raised (the empty
string when `Image.open` itself failed, i.e. before line 350 ran). -/
inductive PilOutcome where
  | ok (file_type phash : String) (width height : Nat)
  | failIdent (file_type : String)
  | failOther (file_type msg : String)
deriving Repr, DecidableEq

/-- The external effects `get_image_info` depends on: the PIL decode
pipeline, `hashlib.md5(...).hexdigest().upper()`, and
`ImageProcessor._fix_corrupted_image` (lines 1007-1061, which catches its
own exceptions and returns `None` on failure). -/
structure PilEnv where
  decode : List Nat → PilOutcome
  md5HexUpper : List Nat → String
  fixImage : List Nat → Option (List Nat)

/-- Substring test on character lists (Python `needle in haystack`). -/
def list_has_sub (needle : List Char) : List Char → Bool
  | [] => needle.isEmpty
  | c :: rest => needle.isPrefixOf (c :: rest) || list_has_sub needle rest

/-- Python `needle in hay` for strings. -/
def str_has_sub (hay needle : String) : Bool := list_has_sub needle.toList hay.toList

/-- The corruption-signature test of lines 376-377: `"Corrupt EXIF data" in
error_msg or "Palette images with Transparency" in error_msg`. -/
def is_corrupt_msg (msg : String) : Bool :=
  str_has_sub msg "Corrupt EXIF data" || str_has_sub msg "Palette images with Transparency"

/-- `ImageProcessor.get_image_info` (lines 316-396).  The first argument of
the recursion is explicit fuel: the Python repair branch (lines 380-383)
calls `self.get_image_info(fixed_bytes)` — the full procedure, repair
branch included — so the recursion has no structural bound in the source;
`none` means the nested repair calls outran the given fuel.  The Python
test `if fixed_bytes:` is falsy for both `None` and the empty byte string.
The orientation strings are the source's own values (line 371); the
`Unknown` orientation of the spec is the empty string. -/
def get_image_info (env : PilEnv) : Nat → List Nat → Option ImageInfo
  | 0, _ => none
  | fuel + 1, bytes_object =>
    let size := bytes_object.length
    let md5_value := env.md5HexUpper bytes_object
    match env.decode bytes_object with
    | .ok ft ph w h =>
      some ⟨size, md5_value, ph, ft, w, h, if h < w then "横向" else "竖向"⟩
    | .failIdent ft =>
      some ⟨size, md5_value, "", ft, 0, 0, ""⟩
    | .failOther ft msg =>
      if is_corrupt_msg msg then
        match env.fixImage bytes_object with
        | some fixed_bytes =>
          if fixed_bytes ≠ [] then get_image_info env fuel fixed_bytes
          else some ⟨size, md5_value, "", ft, 0, 0, ""⟩
        | none => some ⟨size, md5_value, "", ft, 0, 0, ""⟩
      else some ⟨size, md5_value, "", ft, 0, 0, ""⟩

/-- Does the repair branch of `get_image_info` fire on this buffer: the
decode fails with a recognized corruption signature and
`_fix_corrupted_image` returns truthy bytes. -/
def needs_repair (env : PilEnv) (b : List Nat) : Bool :=
  match env.decode b with
  | .failOther _ msg =>
    is_corrupt_msg msg &&
      (match env.fixImage b with
       | some fixed_bytes => !fixed_bytes.isEmpty
       | none => false)
  | _ => false

/-! ## Downloader (`ImageProcessor.download_image`, lines 402-470)

The network is the fetcher source; the filesystem is the list of paths
that exist (`os.path.exists`), threaded explicitly. -/

structure DownloadResult where
  file_path : String
  width : Nat
  height : Nat
  size : Nat
  md5 : String
  file_type : String
  phash : String
  orientation : String
deriving Repr, DecidableEq

/-- Line 434: `md5_hex = image_info['md5'] or md5(content).hexdigest().upper()`
(Python `or` falls back when the first operand is the empty string). -/
def target_md5_hex (env : PilEnv) (info : ImageInfo) (content : List Nat) : String :=
  if info.md5 ≠ "" then info.md5 else env.md5HexUpper content

/-- Lines 435-436: `ext = EXTENSION_MAPPING.get(file_type, f".{file_type}")`
and `final_name = filename or f"{md5_hex}{ext}"` (Python `or` falls back on
`None` and on the empty string). -/
def target_file_name (env : PilEnv) (info : ImageInfo) (content : List Nat)
    (file_type : String) (filename : Option String) : String :=
  let md5_hex := target_md5_hex env info content
  let ext := (EXTENSION_MAPPING.lookup file_type).getD ("." ++ file_type)
  match filename with
  | some f => if f ≠ "" then f else md5_hex ++ ext
  | none => md5_hex ++ ext

/-- The hash stem of line 434, guarded by `get_image_info` returning at all
(`none` = the repair recursion outran the fuel). -/
def compute_md5_hex (env : PilEnv) (fuel : Nat) (content : List Nat) : Option String :=
  match get_image_info env fuel content with
  | none => none
  | some info => some (target_md5_hex env info content)

/-- Lines 428-436 without an override: the default content-addressed file
name `{md5_hex}{ext}`, where the extension comes from `EXTENSION_MAPPING`
with the fallback `"." + file_type`; `none` when the sniffer rejects the
content or the extractor does not return. -/
def default_file_name (env : PilEnv) (fuel : Nat) (content : List Nat) : Option String :=
  match identify_file_type_by_magic (content.take 32) with
  | none => none
  | some file_type =>
    match compute_md5_hex env fuel content with
    | none => none
    | some md5_hex =>
      some (md5_hex ++ ((EXTENSION_MAPPING.lookup file_type).getD ("." ++ file_type)))

/-- Lines 428-466 of `download_image`, from the point where the fetched
content is in hand: sniff the first 32 bytes, extract metadata, build the
target path, then either return the record for an existing path unchanged
(lines 439-450) or record the write (lines 452-466; the write itself is
refined by `persist_ops` below).  The state is the list of existing paths. -/
def download_with_content (env : PilEnv) (fuel : Nat) (content : List Nat)
    (save_dir : String) (filename : Option String) (fs : List String) :
    Option DownloadResult × List String :=
  match identify_file_type_by_magic (content.take 32) with
  | none => (none, fs)
  | some file_type =>
    match get_image_info env fuel content with
    | none => (none, fs)
    | some image_info =>
      let file_path := save_dir ++ "/" ++ target_file_name env image_info content file_type filename
      let record : DownloadResult :=
        ⟨file_path, image_info.width, image_info.height, image_info.size,
         target_md5_hex env image_info content, file_type,
         image_info.phash, image_info.orientation⟩
      if file_path ∈ fs then (some record, fs)
      else (some record, file_path :: fs)

/-- `ImageProcessor.download_image` (lines 402-470): normalize the URL,
fetch the final content through the redirect-following fetcher with the
default budget of 5, then persist.  Headers and timeout do not influence
the modelled control flow. -/
def download_image (env : PilEnv) (fuel : Nat) (src : String → HttpResp) (url : String)
    (save_dir : String) (filename : Option String) (fs : List String) :
    Option DownloadResult × List String :=
  match fetch_content_with_location src (add_https_if_missing url) 5 with
  | none => (none, fs)
  | some content => download_with_content env fuel content save_dir filename fs

/-! ## The write step of `download_image` (lines 452-455), refined

`os.makedirs(save_dir, exist_ok=True)` followed by
`with open(file_path, 'wb') as f: f.write(content)`: an open (which
creates/truncates the file at the final path) and a write, with no
temporary file and no rename anywhere. -/

inductive FsOp where
  | makedirs (dir : String)
  | open_write (path : String)
  | write_all (path : String) (data : List Nat)
  | rename (src dst : String)
deriving Repr, DecidableEq

/-- The exact sequence of filesystem operations lines 452-455 perform. -/
def persist_ops (save_dir file_path : String) (content : List Nat) : List FsOp :=
  [FsOp.makedirs save_dir, FsOp.open_write file_path, FsOp.write_all file_path content]

def is_rename_op : FsOp → Bool
  | .rename _ _ => true
  | _ => false

/-- Effect of one operation on the store (path, contents) pairs. -/
def apply_fs_op (fs : List (String × List Nat)) : FsOp → List (String × List Nat)
  | .makedirs _ => fs
  | .open_write p => (p, []) :: fs.filter (fun e => !(e.1 == p))
  | .write_all p d => (p, d) :: fs.filter (fun e => !(e.1 == p))
  | .rename s t =>
    match fs.lookup s with
    | some d => (t, d) :: (fs.filter (fun e => !(e.1 == s) && !(e.1 == t)))
    | none => fs

/-- State of the store after the first `n` operations ran — the state an
interruption after `n` operations leaves behind. -/
def run_ops_upto (ops : List FsOp) (n : Nat) (fs : List (String × List Nat)) :
    List (String × List Nat) :=
  (ops.take n).foldl apply_fs_op fs

/-! ## Deduplicator (`deduplicate_by_phash_optimized` / `_remove_duplicates`,
lines 806-924)

One per-file result of `_process_files_parallel` (phash, size, path; the
cached mtime plays no role in the grouping step). -/

structure PhashEntry where
  phash : String
  size : Nat
  path : String
deriving Repr, DecidableEq

/-- Stable insertion keeping sizes descending: a later element is placed
after every earlier element of greater-or-equal size.  `sort_desc_by_size`
below therefore computes exactly what Python's stable
`group.sort(key=lambda x: x['size'], reverse=True)` (line 915) computes. -/
def insert_desc (x : PhashEntry) : List PhashEntry → List PhashEntry
  | [] => [x]
  | y :: ys => if y.size ≤ x.size then x :: y :: ys else y :: insert_desc x ys

/-- Stable descending-by-size sort (line 915). -/
def sort_desc_by_size : List PhashEntry → List PhashEntry
  | [] => []
  | x :: xs => insert_desc x (sort_desc_by_size xs)

/-- One step of the grouping loop of lines 834-837 (`defaultdict(list)`
append, insertion order preserved). -/
def add_to_groups : List (String × List PhashEntry) → PhashEntry → List (String × List PhashEntry)
  | [], item => [(item.phash, [item])]
  | (k, v) :: rest, item =>
    if k == item.phash then (k, v ++ [item]) :: rest
    else (k, v) :: add_to_groups rest item

/-- Lines 834-837: group the per-file results by perceptual hash, in
enumeration order. -/
def group_by_phash (items : List PhashEntry) : List (String × List PhashEntry) :=
  items.foldl add_to_groups []

/-- The member of one group `_remove_duplicates` (lines 910-924) keeps:
`group[0]` after the descending stable sort, for groups with more than one
member; singleton groups are left untouched. -/
def survivors_of_group (group : List PhashEntry) : List PhashEntry :=
  if 1 < group.length then (sort_desc_by_size group).take 1 else group

/-- The members of one group `_remove_duplicates` deletes: `group[1:]`
after the sort. -/
def removed_of_group (group : List PhashEntry) : List PhashEntry :=
  if 1 < group.length then (sort_desc_by_size group).drop 1 else []

/-- All deletions of `_remove_duplicates` over the grouped results. -/
def remove_duplicates (groups : List (String × List PhashEntry)) : List PhashEntry :=
  (groups.map (fun kv => removed_of_group kv.2)).flatten

/-! ## Batch acquirer (`batch_download_from_api`, lines 563-737): the
URL-cleaning prelude and its empty short-circuit (lines 577-585). -/

structure BatchSummary where
  success : Nat
  failed : Nat
  details : List String
deriving Repr, DecidableEq

/-- Python whitespace as recognized by `str.strip()`. -/
def is_py_space (c : Char) : Bool :=
  c == ' ' || c == '\t' || c == '\n' || c == '\r' || c == '\x0b' || c == '\x0c'

/-- Python `url.strip()`: drop whitespace from both ends. -/
def py_strip (s : String) : String :=
  String.mk (((s.toList.dropWhile is_py_space).reverse.dropWhile is_py_space).reverse)

/-- Lines 578-582: strip each URL and keep the non-empty results.  The
loop appends in order and performs no deduplication. -/
def clean_api_urls : List String → List String
  | [] => []
  | url :: rest =>
    let stripped := py_strip url
    if stripped ≠ "" then stripped :: clean_api_urls rest
    else clean_api_urls rest

/-- Lines 583-585: with no usable URL the function returns the zero
summary at once, before any network activity; otherwise (`none`) it
proceeds to the fetch rounds. -/
def batch_short_circuit (api_urls : List String) : Option BatchSummary :=
  if clean_api_urls api_urls = [] then some ⟨0, 0, []⟩ else none

/-! ## Concrete oracle instances used by witnesses and counterexamples -/

/-- A decoder that succeeds on everything: a well-formed PNG world. -/
def envDecodeOk : PilEnv where
  decode := fun _ => PilOutcome.ok "png" "ABCD" 3 4
  md5HexUpper := fun _ => "MDX"
  fixImage := fun _ => none

/-- A world where the 3-byte original fails with a corrupt-EXIF message and
repairs to the 2-byte buffer `[4, 5]`, which decodes fine; the two buffers
have different lengths and different digests. -/
def envRepairChanges : PilEnv where
  decode := fun b =>
    if b.length == 3 then PilOutcome.failOther "" "Corrupt EXIF data"
    else PilOutcome.ok "jpeg" "FF" 2 1
  md5HexUpper := fun b => if b.length == 3 then "AAA" else "BBB"
  fixImage := fun _ => some [4, 5]

/-- A world where every decode fails with the corrupt-EXIF signature and
the repair returns the input unchanged: each repair re-run fails and
repairs again. -/
def envRepairLoop : PilEnv where
  decode := fun _ => PilOutcome.failOther "" "Corrupt EXIF data"
  md5HexUpper := fun _ => ""
  fixImage := fun b => some b

/-- A world where only 1-byte buffers fail (with the corrupt-EXIF
signature) and the repair produces the 2-byte buffer `[5, 6]`, which
decodes: exactly one repair pass happens. -/
def envRepairOnce : PilEnv where
  decode := fun b =>
    if b.length == 1 then PilOutcome.failOther "" "Corrupt EXIF data"
    else PilOutcome.ok "jpeg" "PH" 2 1
  md5HexUpper := fun _ => "M"
  fixImage := fun _ => some [5, 6]

/-- A server that answers every URL with a redirect. -/
def srcAlwaysRedirect : String → HttpResp :=
  fun _ => HttpResp.ok 302 (some "host/img") []

/-- Decode world for the downloader witness. -/
def envPngOk : PilEnv where
  decode := fun _ => PilOutcome.ok "png" "PH" 4 3
  md5HexUpper := fun _ => "MD5HEX"
  fixImage := fun _ => none

/-- A five-byte buffer carrying the PNG magic. -/
def pngContent : List Nat := [137, 80, 78, 71, 9]

/-- The download record the witness run produces. -/
def pngRecord : DownloadResult :=
  ⟨"dir/MD5HEX.png", 4, 3, 5, "MD5HEX", "png", "PH", "横向"⟩

/-! ## Helper lemmas about the sniffer -/

theorem bytes_starts_with_iff_take (s : List Nat) :
    ∀ d : List Nat, bytes_starts_with s d = true ↔ d.take s.length = s := by
  induction s with
  | nil => intro d; simp [bytes_starts_with]
  | cons a ss ih =>
    intro d
    cases d with
    | nil => simp [bytes_starts_with]
    | cons b ds =>
      simp only [bytes_starts_with, Bool.and_eq_true, beq_iff_eq, List.length_cons,
        List.take_succ_cons, List.cons.injEq, ih ds]
      tauto

theorem bytes_starts_with_append_self (s t : List Nat) :
    bytes_starts_with s (s ++ t) = true := by
  rw [bytes_starts_with_iff_take]
  exact List.take_left s t

theorem bytes_starts_with_le_length (s d : List Nat)
    (h : bytes_starts_with s d = true) : s.length ≤ d.length := by
  rw [bytes_starts_with_iff_take] at h
  have := congrArg List.length h
  simp [List.length_take] at this
  omega

theorem scan_magic_first_match (b : List Nat) :
    ∀ (tbl : List (List Nat × String)) (i : Nat) (sig : List Nat) (t : String),
      tbl.get? i = some (sig, t) →
      bytes_starts_with sig b = true →
      no_earlier_match tbl b i = true →
      scan_magic tbl b = some t := by
  intro tbl
  induction tbl with
  | nil => intro i sig t hget; simp at hget
  | cons hd rest ih =>
    intro i sig t hget hstart hne
    obtain ⟨magic, ft⟩ := hd
    cases i with
    | zero =>
      simp at hget
      obtain ⟨rfl, rfl⟩ := hget
      have hlen := bytes_starts_with_le_length _ _ hstart
      simp [scan_magic, hstart, hlen]
    | succ k =>
      have hne' : ∀ j, j < k + 1 →
          (match ((magic, ft) :: rest).get? j with
           | some e => !(bytes_starts_with e.1 b)
           | none => true) = true := by
        intro j hj
        have := List.all_eq_true.mp hne j (List.mem_range.mpr hj)
        exact this
      have h0 : bytes_starts_with magic b = false := by
        have := hne' 0 (Nat.succ_pos k)
        simpa using this
      have hrec : no_earlier_match rest b k = true := by
        unfold no_earlier_match
        rw [List.all_eq_true]
        intro j hj
        have hj' := List.mem_range.mp hj
        have := hne' (j + 1) (by omega)
        simpa using this
      have hget' : rest.get? k = some (sig, t) := by simpa using hget
      have := ih k sig t hget' hstart hrec
      simp [scan_magic, h0, this]

/-! ## Claim theorems for the content sniffer -/

/-- Claim C10 (confirmed): every buffer of length 0 or 1 is rejected by the
guard before any table lookup, so the sniffer returns `none` on it — even
though the table's last entry is the one-byte signature `0x0A` mapped to
`py`. -/
theorem c10_short_input_unrecognized :
    (∀ data : List Nat, data.length < 2 → identify_file_type_by_magic data = none) ∧
    ([10], "py") ∈ MAGIC_NUMBERS := by
  constructor
  · intro data h
    simp [identify_file_type_by_magic, h]
  · decide

/-- Witness for C10: the one-byte buffer equal to the `0x0A` table
signature is classified as unrecognized. -/
theorem c10_short_input_unrecognized_witness :
    ([(10 : Nat)].length < 2) ∧ identify_file_type_by_magic [10] = none :=
  ⟨by decide, c10_short_input_unrecognized.1 [10] (by decide)⟩

/-- Claim C4 (confirmed): on every buffer of at least 12 bytes that starts
with `RIFF`, the sniffer decides by the tag at bytes 8-12 before the
generic table: `AVI ` gives avi, `WAVE` gives wav, `WEBP` gives webp. -/
theorem c4_riff_disambiguation :
    ∀ data : List Nat, 12 ≤ data.length → data.take 4 = riffSig →
      ((data.drop 8).take 4 = [65, 86, 73, 32] →
        identify_file_type_by_magic data = some "avi") ∧
      ((data.drop 8).take 4 = [87, 65, 86, 69] →
        identify_file_type_by_magic data = some "wav") ∧
      ((data.drop 8).take 4 = [87, 69, 66, 80] →
        identify_file_type_by_magic data = some "webp") := by
  intro data h12 htake
  have hbsw : bytes_starts_with riffSig data = true := by
    rw [bytes_starts_with_iff_take]
    simpa [riffSig] using htake
  have hlt : ¬ (data.length < 2) := by omega
  refine ⟨?_, ?_, ?_⟩ <;> intro hrt <;>
    simp [identify_file_type_by_magic, hlt, hbsw, h12, hrt]

/-- Witness for C4: a concrete `RIFF....WAVE` buffer classifies as wav. -/
theorem c4_riff_disambiguation_witness :
    identify_file_type_by_magic [82, 73, 70, 70, 1, 2, 3, 4, 87, 65, 86, 69] = some "wav" :=
  ((c4_riff_disambiguation [82, 73, 70, 70, 1, 2, 3, 4, 87, 65, 86, 69]
    (by decide) (by decide)).2.1) (by decide)

/-- Counterexample for C3: the table entry at index 19 is
`(b"RIFF", wav)`, yet the buffer made of exactly that signature followed by
eight trailing zero bytes classifies as avi (the RIFF special case falls
through on the unknown tag and the generic scan hits the earlier
`(b"RIFF", avi)` entry first), not wav. -/
theorem c3_riff_wav_entry_counterexample :
    MAGIC_NUMBERS.get? 19 = some (riffSig, "wav") ∧
    identify_file_type_by_magic (riffSig ++ [0, 0, 0, 0, 0, 0, 0, 0]) = some "avi" ∧
    ("avi" : String) ≠ "wav" := by
  refine ⟨by decide, by decide, by decide⟩

/-- Claim C3 (amended): a buffer that begins with a table entry's signature
followed by arbitrary trailing bytes classifies as that entry's type
provided the buffer is at least 2 bytes long, does not start with `RIFF`
(those buffers go through the RIFF special case or the first `RIFF` table
entry), and no earlier table entry's signature is a prefix of the buffer;
and a buffer shorter than the shortest table entry (the empty buffer)
matches nothing and returns `none`. -/
theorem c3_sniffer_first_match :
    (∀ (i : Nat) (sig : List Nat) (t : String) (tr : List Nat),
      MAGIC_NUMBERS.get? i = some (sig, t) →
      2 ≤ (sig ++ tr).length →
      bytes_starts_with riffSig (sig ++ tr) = false →
      no_earlier_match MAGIC_NUMBERS (sig ++ tr) i = true →
      identify_file_type_by_magic (sig ++ tr) = some t) ∧
    (∀ data : List Nat, data.length < 1 → identify_file_type_by_magic data = none) := by
  constructor
  · intro i sig t tr hget hlen hriff hne
    have hstart := bytes_starts_with_append_self sig tr
    have hscan := scan_magic_first_match (sig ++ tr) MAGIC_NUMBERS i sig t hget hstart hne
    unfold identify_file_type_by_magic
    rw [if_neg (show ¬ ((sig ++ tr).length < 2) by omega)]
    rw [if_neg (show ¬ (bytes_starts_with riffSig (sig ++ tr) = true ∧ 12 ≤ (sig ++ tr).length) by
      rintro ⟨h1, h2⟩
      rw [hriff] at h1
      cases h1)]
    exact hscan
  · intro data h
    have h2 : data.length < 2 := by omega
    simp [identify_file_type_by_magic, h2]

/-- Witness for C3: the PNG entry (index 21) with one trailing byte
classifies as png, and the empty buffer is unrecognized. -/
theorem c3_sniffer_first_match_witness :
    identify_file_type_by_magic ([137, 80, 78, 71] ++ [0]) = some "png" ∧
    identify_file_type_by_magic [] = none :=
  ⟨c3_sniffer_first_match.1 21 [137, 80, 78, 71] "png" [0]
      (by decide) (by decide) (by decide) (by decide),
    c3_sniffer_first_match.2 [] (by decide)⟩

/-! ## Claim theorem for the fetcher -/

/-- Claim C5 (confirmed): against a source whose every response carries a
redirect location, the fetcher with budget `N` issues exactly `N` requests
and then fails with `none`; a zero budget fails immediately; a response
that is neither a redirect nor a 200 yields `none` (as does the exception
branch); a non-redirect response yields the content exactly when its
status is 200; and a redirect response consumes one unit of budget and
continues at the normalized location. -/
theorem c5_fetch_redirect_bound :
    ∀ (src : String → HttpResp) (url : String) (N : Nat),
      ((∀ u, is_redirect_resp (src u) = true) →
        fetch_content_with_location src url N = none ∧
        fetch_request_count src url N = N) ∧
      (fetch_content_with_location src url 0 = none) ∧
      (∀ s l c, 0 < N → src url = HttpResp.ok s l c → location_truthy l = false →
        fetch_content_with_location src url N = (if s == 200 then some c else none)) ∧
      (0 < N → src url = HttpResp.exn → fetch_content_with_location src url N = none) ∧
      (∀ s l c, 0 < N → src url = HttpResp.ok s l c → location_truthy l = true →
        fetch_content_with_location src url N =
          fetch_content_with_location src (add_https_if_missing (l.getD "")) (N - 1)) := by
  intro src url N
  refine ⟨?_, rfl, ?_, ?_, ?_⟩
  · intro hall
    induction N generalizing url with
    | zero => exact ⟨rfl, rfl⟩
    | succ n ih =>
      cases hsrc : src url with
      | exn =>
        have := hall url
        rw [hsrc] at this
        simp [is_redirect_resp] at this
      | ok s l c =>
        have hl : location_truthy l = true := by
          have := hall url
          rw [hsrc] at this
          simpa [is_redirect_resp] using this
        obtain ⟨ih1, ih2⟩ := ih (add_https_if_missing (l.getD ""))
        constructor
        · simp [fetch_content_with_location, hsrc, hl, ih1]
        · simp [fetch_request_count, hsrc, hl, ih2]
          omega
  · intro s l c hN hsrc hl
    obtain ⟨n, rfl⟩ : ∃ n, N = n + 1 := ⟨N - 1, by omega⟩
    simp [fetch_content_with_location, hsrc, hl]
  · intro hN hsrc
    obtain ⟨n, rfl⟩ : ∃ n, N = n + 1 := ⟨N - 1, by omega⟩
    simp [fetch_content_with_location, hsrc]
  · intro s l c hN hsrc hl
    obtain ⟨n, rfl⟩ : ∃ n, N = n + 1 := ⟨N - 1, by omega⟩
    simp [fetch_content_with_location, hsrc, hl]

/-- Witness for C5: an always-redirecting server exhausts a budget of 3 in
exactly 3 requests and the fetch fails. -/
theorem c5_fetch_redirect_bound_witness :
    fetch_content_with_location srcAlwaysRedirect "start.example" 3 = none ∧
    fetch_request_count srcAlwaysRedirect "start.example" 3 = 3 :=
  (c5_fetch_redirect_bound srcAlwaysRedirect "start.example" 3).1 (fun _ => rfl)

/-! ## Claim theorems for the metadata extractor -/

/-- When the repair branch does not fire, one pass of `get_image_info`
returns a record (fuel 1 suffices). -/
theorem get_image_info_total_no_repair (env : PilEnv) (b : List Nat)
    (h : needs_repair env b = false) :
    (get_image_info env 1 b).isSome = true := by
  unfold needs_repair at h
  cases hdec : env.decode b with
  | ok ft ph w hh => simp [get_image_info, hdec]
  | failIdent ft => simp [get_image_info, hdec]
  | failOther ft msg =>
    rw [hdec] at h
    cases hc : is_corrupt_msg msg with
    | false => simp [get_image_info, hdec, hc]
    | true =>
      cases hf : env.fixImage b with
      | none => simp [get_image_info, hdec, hc, hf]
      | some fb =>
        simp only [hc, hf, Bool.true_and] at h
        cases fb with
        | nil => simp [get_image_info, hdec, hc, hf]
        | cons x xs => simp at h

/-- Counterexample for C1: in the world `envRepairChanges` the 3-byte
buffer `[1, 2, 3]` fails decoding with a corrupt-EXIF message, repairs to
the 2-byte buffer `[4, 5]`, and the record the extraction returns carries
the size and digest of the repaired bytes: `sizeBytes` is 2, not the
buffer's length 3, and the hash is the repaired buffer's digest, not the
original buffer's. -/
theorem c1_repair_changes_record_counterexample :
    get_image_info envRepairChanges 2 [1, 2, 3] =
      some ⟨2, "BBB", "FF", "jpeg", 2, 1, "横向"⟩ ∧
    ((2 : Nat) ≠ ([1, 2, 3] : List Nat).length ∧
      ("BBB" : String) ≠ envRepairChanges.md5HexUpper [1, 2, 3]) := by
  refine ⟨by decide, by decide, by decide⟩

/-- Claim C1 (amended): extraction always returns a record and never
raises; whenever no repair recursion fires — decode success, unidentified
failure, a failure whose message carries no corruption signature, or a
corruption failure the repairer gives up on — the record carries the
buffer's own length and digest, and on those failures the degraded record
has empty file type, zero dimensions, empty perceptual hash and empty
(`Unknown`) orientation; when a corruption failure is successfully
repaired, the returned record is the extraction of the repaired bytes
instead. -/
theorem c1_get_image_info_record :
    ∀ (env : PilEnv) (b : List Nat) (fuel : Nat),
      (∀ ft ph w h, env.decode b = PilOutcome.ok ft ph w h →
        get_image_info env (fuel + 1) b =
          some ⟨b.length, env.md5HexUpper b, ph, ft, w, h,
            if h < w then "横向" else "竖向"⟩) ∧
      (env.decode b = PilOutcome.failIdent "" →
        get_image_info env (fuel + 1) b =
          some ⟨b.length, env.md5HexUpper b, "", "", 0, 0, ""⟩) ∧
      (∀ msg, env.decode b = PilOutcome.failOther "" msg →
        (is_corrupt_msg msg = false ∨ env.fixImage b = none) →
        get_image_info env (fuel + 1) b =
          some ⟨b.length, env.md5HexUpper b, "", "", 0, 0, ""⟩) ∧
      (∀ msg fb, env.decode b = PilOutcome.failOther "" msg →
        is_corrupt_msg msg = true → env.fixImage b = some fb → fb ≠ [] →
        get_image_info env (fuel + 1) b = get_image_info env fuel fb) := by
  intro env b fuel
  refine ⟨?_, ?_, ?_, ?_⟩
  · intro ft ph w h hdec
    simp [get_image_info, hdec]
  · intro hdec
    simp [get_image_info, hdec]
  · intro msg hdec hcase
    rcases hcase with hc | hf
    · simp [get_image_info, hdec, hc]
    · cases hc2 : is_corrupt_msg msg with
      | false => simp [get_image_info, hdec, hc2]
      | true => simp [get_image_info, hdec, hc2, hf]
  · intro msg fb hdec hc hf hne
    simp [get_image_info, hdec, hc, hf, hne]

/-- Witness for C1: a successful decode yields the fully populated record
for the buffer itself. -/
theorem c1_get_image_info_record_witness :
    get_image_info envDecodeOk 1 [1, 2] = some ⟨2, "MDX", "ABCD", "png", 3, 4, "竖向"⟩ :=
  (c1_get_image_info_record envDecodeOk [1, 2] 0).1 "png" "ABCD" 3 4 rfl

/-- Counterexample for C2: in the world `envRepairLoop` every decode fails
with the corruption signature and every repair returns the bytes
unchanged, so the repair branch fires on the repaired bytes again and
again: the extraction has not returned after two nested calls (the most
the claimed single repair attempt could take) nor after nine. -/
theorem c2_unbounded_repair_counterexample :
    needs_repair envRepairLoop [7] = true ∧
    get_image_info envRepairLoop 2 [7] = none ∧
    get_image_info envRepairLoop 9 [7] = none := by
  refine ⟨by decide, by decide, by decide⟩

/-- Claim C2 (amended): the repair path re-runs the full extraction
procedure on the repaired bytes through unbounded self-recursion — the
source has no depth cap.  Extraction does terminate, with at most one
repair attempt, whenever the repair branch does not fire on the repaired
bytes (and immediately when it does not fire at all); the single-attempt
bound is not enforced by the code when the repaired bytes again decode-fail
with a corruption signature and repair. -/
theorem c2_repair_depth :
    ∀ (env : PilEnv) (b : List Nat),
      (needs_repair env b = false → (get_image_info env 1 b).isSome = true) ∧
      (∀ fb, needs_repair env b = true → env.fixImage b = some fb →
        needs_repair env fb = false → (get_image_info env 2 b).isSome = true) := by
  intro env b
  constructor
  · exact get_image_info_total_no_repair env b
  · intro fb h1 hf h2
    unfold needs_repair at h1
    cases hdec : env.decode b with
    | ok ft ph w hh => rw [hdec] at h1; simp at h1
    | failIdent ft => rw [hdec] at h1; simp at h1
    | failOther ft msg =>
      rw [hdec, hf] at h1
      simp at h1
      obtain ⟨hc, hfb⟩ := h1
      have hne : fb ≠ [] := by
        cases fb with
        | nil => simp at hfb
        | cons x xs => simp
      have hstep : get_image_info env 2 b = get_image_info env 1 fb := by
        simp [get_image_info, hdec, hc, hf, hne]
      rw [hstep]
      exact get_image_info_total_no_repair env fb h2

/-- Witness for C2: one repair pass, then success on the repaired bytes. -/
theorem c2_repair_depth_witness :
    (get_image_info envRepairOnce 2 [9]).isSome = true :=
  (c2_repair_depth envRepairOnce [9]).2 [5, 6] rfl rfl rfl

/-! ## Claim theorem for the downloader -/

/-- Left factors of equal length in equal concatenations agree. -/
theorem string_append_left_cancel (a b c d : String) (hlen : a.length = b.length)
    (h : a ++ c = b ++ d) : a = b := by
  have hdata : a.data ++ c.data = b.data ++ d.data := by
    have h2 := congrArg String.data h
    simpa [String.data_append] using h2
  exact String.ext (List.append_inj_left hdata hlen)

/-- Claim C6 (confirmed): the downloader is idempotent under content
addressing.  First, with the default filename the result of
`download_image` depends on the fetched bytes only, not on the source URL.
Second, two contents whose computed hash stems differ (the stems of real
MD5 hex digests always have equal length 32) get different default
filenames.  Third, re-running the download of the same content on the
state the first run produced returns the same record and leaves the state
unchanged, and a download whose target was absent leaves exactly one copy
of the target path.  Last, a successful default-named download uses
exactly the path `save_dir/{md5_hex}{ext}`. -/
theorem c6_download_content_addressing :
    (∀ (env : PilEnv) (fuel : Nat) (src1 src2 : String → HttpResp) (u1 u2 : String)
        (c : List Nat) (dir : String) (fs : List String),
      fetch_content_with_location src1 (add_https_if_missing u1) 5 = some c →
      fetch_content_with_location src2 (add_https_if_missing u2) 5 = some c →
      download_image env fuel src1 u1 dir none fs =
        download_image env fuel src2 u2 dir none fs) ∧
    (∀ (env : PilEnv) (fuel : Nat) (a b : List Nat) (ha hb na nb : String),
      compute_md5_hex env fuel a = some ha → compute_md5_hex env fuel b = some hb →
      default_file_name env fuel a = some na → default_file_name env fuel b = some nb →
      ha ≠ hb → ha.length = hb.length → na ≠ nb) ∧
    (∀ (env : PilEnv) (fuel : Nat) (c : List Nat) (dir : String) (fn : Option String)
        (fs : List String) (r : DownloadResult) (fs1 : List String),
      download_with_content env fuel c dir fn fs = (some r, fs1) →
      download_with_content env fuel c dir fn fs1 = (some r, fs1)) ∧
    (∀ (env : PilEnv) (fuel : Nat) (c : List Nat) (dir : String) (fn : Option String)
        (fs : List String) (r : DownloadResult) (fs1 : List String),
      download_with_content env fuel c dir fn fs = (some r, fs1) →
      r.file_path ∉ fs → List.count r.file_path fs1 = 1) ∧
    (∀ (env : PilEnv) (fuel : Nat) (c : List Nat) (dir : String)
        (fs : List String) (r : DownloadResult) (fs1 : List String),
      download_with_content env fuel c dir none fs = (some r, fs1) →
      ∃ nm, default_file_name env fuel c = some nm ∧ r.file_path = dir ++ "/" ++ nm) := by
  refine ⟨?_, ?_, ?_, ?_, ?_⟩
  · intro env fuel src1 src2 u1 u2 c dir fs h1 h2
    unfold download_image
    rw [h1, h2]
  · intro env fuel a b ha hb na nb hca hcb hna hnb hne hlen
    unfold default_file_name at hna hnb
    cases hia : identify_file_type_by_magic (a.take 32) with
    | none => rw [hia] at hna; simp at hna
    | some fta =>
      rw [hia, hca] at hna
      simp only [Option.some.injEq] at hna
      cases hib : identify_file_type_by_magic (b.take 32) with
      | none => rw [hib] at hnb; simp at hnb
      | some ftb =>
        rw [hib, hcb] at hnb
        simp only [Option.some.injEq] at hnb
        intro hcontra
        exact hne (string_append_left_cancel ha hb _ _ hlen (by rw [hna, hnb, hcontra]))
  · intro env fuel c dir fn fs r fs1 h
    unfold download_with_content at h ⊢
    cases hid : identify_file_type_by_magic (c.take 32) with
    | none => rw [hid] at h; simp at h
    | some ft =>
      rw [hid] at h
      cases hgi : get_image_info env fuel c with
      | none => rw [hgi] at h; simp at h
      | some info =>
        rw [hgi] at h
        dsimp only at h ⊢
        by_cases hmem : (dir ++ "/" ++ target_file_name env info c ft fn) ∈ fs
        · rw [if_pos hmem] at h
          simp only [Prod.mk.injEq, Option.some.injEq] at h
          obtain ⟨hr, hfs⟩ := h
          subst hfs
          subst hr
          rw [if_pos hmem]
        · rw [if_neg hmem] at h
          simp only [Prod.mk.injEq, Option.some.injEq] at h
          obtain ⟨hr, hfs⟩ := h
          subst hfs
          subst hr
          rw [if_pos (List.mem_cons_self _ _)]
  · intro env fuel c dir fn fs r fs1 h hnot
    unfold download_with_content at h
    cases hid : identify_file_type_by_magic (c.take 32) with
    | none => rw [hid] at h; simp at h
    | some ft =>
      rw [hid] at h
      cases hgi : get_image_info env fuel c with
      | none => rw [hgi] at h; simp at h
      | some info =>
        rw [hgi] at h
        dsimp only at h
        by_cases hmem : (dir ++ "/" ++ target_file_name env info c ft fn) ∈ fs
        · rw [if_pos hmem] at h
          simp only [Prod.mk.injEq, Option.some.injEq] at h
          obtain ⟨hr, hfs⟩ := h
          subst hfs
          subst hr
          dsimp only at hnot
          exact absurd hmem hnot
        · rw [if_neg hmem] at h
          simp only [Prod.mk.injEq, Option.some.injEq] at h
          obtain ⟨hr, hfs⟩ := h
          subst hfs
          subst hr
          dsimp only at hnot ⊢
          rw [List.count_cons_self, List.count_eq_zero.mpr hmem]
  · intro env fuel c dir fs r fs1 h
    unfold download_with_content at h
    cases hid : identify_file_type_by_magic (c.take 32) with
    | none => rw [hid] at h; simp at h
    | some ft =>
      rw [hid] at h
      cases hgi : get_image_info env fuel c with
      | none => rw [hgi] at h; simp at h
      | some info =>
        rw [hgi] at h
        dsimp only at h
        refine ⟨target_md5_hex env info c ++
          ((EXTENSION_MAPPING.lookup ft).getD ("." ++ ft)), ?_, ?_⟩
        · simp [default_file_name, compute_md5_hex, hid, hgi]
        · by_cases hmem : (dir ++ "/" ++ target_file_name env info c ft none) ∈ fs
          · rw [if_pos hmem] at h
            simp only [Prod.mk.injEq, Option.some.injEq] at h
            obtain ⟨hr, hfs⟩ := h
            rw [← hr]
            simp [target_file_name]
          · rw [if_neg hmem] at h
            simp only [Prod.mk.injEq, Option.some.injEq] at h
            obtain ⟨hr, hfs⟩ := h
            rw [← hr]
            simp [target_file_name]

/-- Witness for C6: a second download of the PNG content into a state that
already holds `dir/MD5HEX.png` returns the record and changes nothing. -/
theorem c6_download_content_addressing_witness :
    download_with_content envPngOk 1 pngContent "dir" none ["dir/MD5HEX.png"] =
      (some pngRecord, ["dir/MD5HEX.png"]) :=
  c6_download_content_addressing.2.2.1 envPngOk 1 pngContent "dir" none []
    pngRecord ["dir/MD5HEX.png"] (by decide)

/-! ## Claim theorems for the write step -/

/-- Counterexample for C7: the persist step of `download_image` contains no
rename at all, and interrupting it after two of its three operations (the
directory creation and the truncating open) leaves a file at the final
target path whose content is not the fetched bytes — a half-written file
at the final path, which the claimed write-then-rename scheme rules out. -/
theorem c7_no_atomic_write_counterexample :
    (persist_ops "img" "img/a.png" [1, 2, 3]).all (fun op => !(is_rename_op op)) = true ∧
    run_ops_upto (persist_ops "img" "img/a.png" [1, 2, 3]) 2 [] = [("img/a.png", [])] ∧
    run_ops_upto (persist_ops "img" "img/a.png" [1, 2, 3]) 3 [] = [("img/a.png", [1, 2, 3])] ∧
    (([] : List Nat) ≠ [1, 2, 3]) := by
  refine ⟨by decide, by decide, by decide, by decide⟩

/-- Claim C7 (amended): when the target path does not exist,
`download_image` creates the target directory if needed and then writes the
fetched bytes directly to the final target path — a truncating open
followed by a single write, with no temporary file and no rename — so the
completed write leaves exactly the fetched bytes at the target, but an
interrupted write can leave a half-written file at the final path. -/
theorem c7_direct_write :
    ∀ (d p : String) (c : List Nat),
      persist_ops d p c = [FsOp.makedirs d, FsOp.open_write p, FsOp.write_all p c] ∧
      (persist_ops d p c).all (fun op => !(is_rename_op op)) = true ∧
      run_ops_upto (persist_ops d p c) 3 [] = [(p, c)] := by
  intro d p c
  refine ⟨rfl, rfl, ?_⟩
  simp [run_ops_upto, persist_ops, apply_fs_op]

/-! ## Claim theorems for the deduplicator -/

theorem mem_insert_desc {x y : PhashEntry} {l : List PhashEntry} :
    y ∈ insert_desc x l ↔ y = x ∨ y ∈ l := by
  induction l with
  | nil => simp [insert_desc]
  | cons a as ih =>
    by_cases h : a.size ≤ x.size
    · simp [insert_desc, h]
    · simp [insert_desc, h, ih]
      tauto

/-- The head of the stable descending sort is a member of the list of
maximal size. -/
theorem sort_desc_head_spec :
    ∀ g : List PhashEntry, g ≠ [] →
      ∃ h t, sort_desc_by_size g = h :: t ∧ h ∈ g ∧ ∀ y ∈ g, y.size ≤ h.size := by
  intro g
  induction g with
  | nil => intro hne; exact absurd rfl hne
  | cons a as ih =>
    intro _
    cases as with
    | nil =>
      refine ⟨a, [], by simp [sort_desc_by_size, insert_desc], by simp, ?_⟩
      intro y hy
      simp at hy
      subst hy
      exact Nat.le_refl _
    | cons b bs =>
      obtain ⟨h, t, hsort, hmem, hmax⟩ := ih (by simp)
      by_cases hle : h.size ≤ a.size
      · refine ⟨a, h :: t, ?_, by simp, ?_⟩
        · rw [show sort_desc_by_size (a :: b :: bs) =
              insert_desc a (sort_desc_by_size (b :: bs)) from rfl, hsort]
          simp [insert_desc, hle]
        · intro y hy
          rcases List.mem_cons.mp hy with rfl | hy'
          · exact Nat.le_refl _
          · exact Nat.le_trans (hmax y hy') hle
      · refine ⟨h, insert_desc a t, ?_, ?_, ?_⟩
        · rw [show sort_desc_by_size (a :: b :: bs) =
              insert_desc a (sort_desc_by_size (b :: bs)) from rfl, hsort]
          simp [insert_desc, hle]
        · exact List.mem_cons_of_mem a hmem
        · intro y hy
          rcases List.mem_cons.mp hy with rfl | hy'
          · omega
          · exact hmax y hy'

theorem add_to_groups_phash_inv :
    ∀ (gs : List (String × List PhashEntry)) (item : PhashEntry),
      (∀ k v, (k, v) ∈ gs → ∀ e ∈ v, e.phash = k) →
      ∀ k v, (k, v) ∈ add_to_groups gs item → ∀ e ∈ v, e.phash = k := by
  intro gs item
  induction gs with
  | nil =>
    intro _ k v hkv e he
    simp [add_to_groups] at hkv
    obtain ⟨rfl, rfl⟩ := hkv
    simp at he
    subst he
    rfl
  | cons g rest ih =>
    obtain ⟨gk, gv⟩ := g
    intro hinv k v hkv e he
    by_cases hb : (gk == item.phash) = true
    · rw [add_to_groups, if_pos hb] at hkv
      rcases List.mem_cons.mp hkv with heq | htail
      · have hk : k = gk := congrArg Prod.fst heq
        have hv : v = gv ++ [item] := congrArg Prod.snd heq
        rw [hv] at he
        rw [hk]
        rcases List.mem_append.mp he with hgv | hitem
        · exact hinv gk gv (List.mem_cons_self _ _) e hgv
        · simp at hitem
          subst hitem
          exact (beq_iff_eq.mp hb).symm
      · exact hinv k v (List.mem_cons_of_mem _ htail) e he
    · rw [add_to_groups, if_neg hb] at hkv
      rcases List.mem_cons.mp hkv with heq | htail
      · have hk : k = gk := congrArg Prod.fst heq
        have hv : v = gv := congrArg Prod.snd heq
        rw [hv] at he
        rw [hk]
        exact hinv gk gv (List.mem_cons_self _ _) e he
      · exact ih (fun k' v' hm => hinv k' v' (List.mem_cons_of_mem _ hm)) k v htail e he

theorem group_by_phash_inv :
    ∀ (items : List PhashEntry) (k : String) (v : List PhashEntry),
      (k, v) ∈ group_by_phash items → ∀ e ∈ v, e.phash = k := by
  suffices hgen : ∀ (items : List PhashEntry) (acc : List (String × List PhashEntry)),
      (∀ k v, (k, v) ∈ acc → ∀ e ∈ v, e.phash = k) →
      ∀ k v, (k, v) ∈ items.foldl add_to_groups acc → ∀ e ∈ v, e.phash = k by
    intro items k v
    exact hgen items [] (by simp) k v
  intro items
  induction items with
  | nil => intro acc hacc; simpa using hacc
  | cons it rest ih =>
    intro acc hacc
    simp only [List.foldl_cons]
    exact ih (add_to_groups acc it) (add_to_groups_phash_inv acc it hacc)

/-- Counterexample for C8: two enumeration orders of the same two
equal-sized duplicates (the same directory data, observed in the two
orders a concurrent worker pool can complete in) keep different
survivors, so the surviving file is not a function of the sizes alone. -/
theorem c8_tie_depends_on_order_counterexample :
    survivors_of_group [⟨"H", 5, "a"⟩, ⟨"H", 5, "b"⟩] = [⟨"H", 5, "a"⟩] ∧
    survivors_of_group [⟨"H", 5, "b"⟩, ⟨"H", 5, "a"⟩] = [⟨"H", 5, "b"⟩] ∧
    ([⟨"H", 5, "a"⟩, ⟨"H", 5, "b"⟩] : List PhashEntry).Perm
      [⟨"H", 5, "b"⟩, ⟨"H", 5, "a"⟩] ∧
    (⟨"H", 5, "a"⟩ : PhashEntry) ≠ ⟨"H", 5, "b"⟩ := by
  refine ⟨by decide, by decide, by decide, by decide⟩

/-- Claim C8 (amended): the deduplicator groups the successfully hashed
files by perceptual hash (every member of a group carries the group's
hash); in a group of more than one member the kept member and the deleted
members partition the descending-by-size sort of the group; and whenever
the maximal size in a group is unique, the kept member is exactly the
largest file, for every enumeration order of the group — with equal-size
ties the survivor instead depends on the enumeration order produced by
the concurrent processing (see the counterexample). -/
theorem c8_dedup_largest :
    (∀ (items : List PhashEntry) (k : String) (v : List PhashEntry),
      (k, v) ∈ group_by_phash items → ∀ e ∈ v, e.phash = k) ∧
    (∀ g : List PhashEntry, 1 < g.length →
      survivors_of_group g ++ removed_of_group g = sort_desc_by_size g) ∧
    (∀ (g : List PhashEntry) (x : PhashEntry),
      x ∈ g → (∀ y ∈ g, y ≠ x → y.size < x.size) → survivors_of_group g = [x]) := by
  refine ⟨group_by_phash_inv, ?_, ?_⟩
  · intro g hlen
    unfold survivors_of_group removed_of_group
    rw [if_pos hlen, if_pos hlen]
    exact List.take_append_drop 1 _
  · intro g x hx hmax
    by_cases hlen : 1 < g.length
    · obtain ⟨h, t, hsort, hmem, hmaxall⟩ := sort_desc_head_spec g (by
        intro he
        rw [he] at hx
        simp at hx)
      have hx_eq : h = x := by
        by_contra hne
        have h1 := hmax h hmem hne
        have h2 := hmaxall x hx
        omega
      subst hx_eq
      simp [survivors_of_group, hlen, hsort]
    · have hg : g = [x] := by
        cases g with
        | nil => simp at hx
        | cons a as =>
          cases as with
          | nil =>
            simp at hx
            subst hx
            rfl
          | cons b bs => simp at hlen
      rw [hg]
      simp [survivors_of_group]

/-- Witness for C8: in a three-member group with a unique largest file,
exactly the largest survives. -/
theorem c8_dedup_largest_witness :
    survivors_of_group [⟨"H", 3, "s.png"⟩, ⟨"H", 7, "b.png"⟩, ⟨"H", 5, "m.png"⟩] =
      [⟨"H", 7, "b.png"⟩] :=
  c8_dedup_largest.2.2 [⟨"H", 3, "s.png"⟩, ⟨"H", 7, "b.png"⟩, ⟨"H", 5, "m.png"⟩]
    ⟨"H", 7, "b.png"⟩ (by decide) (by decide)

/-! ## Claim theorem for the batch acquirer -/

/-- Claim C9, evaluation at the failing input: the cleaning loop of
`batch_download_from_api` keeps duplicate URLs — the duplicated URL
survives twice and is therefore fetched twice per round — even though the
loop's own comment promises deduplication; the trimming of
whitespace-only entries and the empty-input zero-summary short-circuit do
behave as claimed. -/
theorem c9_clean_urls_keep_duplicates :
    clean_api_urls ["http://a.example", "http://a.example"] =
      ["http://a.example", "http://a.example"] ∧
    (clean_api_urls ["http://a.example", "http://a.example"]).count "http://a.example" = 2 ∧
    batch_short_circuit ["", "   "] = some ⟨0, 0, []⟩ ∧
    batch_short_circuit ["http://a.example", "http://a.example"] = none := by
  refine ⟨by decide, by decide, by decide, by decide⟩
